import Mathlib

/-!
Shallow embedding of the socket-based room coordinator of the vido backend
(source: src/auth.ts socket module).  The global mutable maps of the source
(roomModerators, socketUserInfo, rooms adapter, messageBuffer, meetingIdMap)
become fields of an explicit state record; each socket event handler becomes
a function from the state (plus the external collaborator answers that the
handler awaits) to a new state together with the list of emitted messages.
-/

namespace VidoBackend

/-- Association-list lookup, mirroring JavaScript Map.get. -/
def mapGet {α : Type} (m : List (String × α)) (k : String) : Option α :=
  match m with
  | [] => none
  | p :: rest => if p.1 = k then some p.2 else mapGet rest k

/-- Association-list insert/overwrite, mirroring JavaScript Map.set. -/
def mapSet {α : Type} (m : List (String × α)) (k : String) (v : α) : List (String × α) :=
  match m with
  | [] => [(k, v)]
  | p :: rest => if p.1 = k then (k, v) :: rest else p :: mapSet rest k v

/-- Association-list removal, mirroring JavaScript Map.delete. -/
def mapDel {α : Type} (m : List (String × α)) (k : String) : List (String × α) :=
  match m with
  | [] => []
  | p :: rest => if p.1 = k then mapDel rest k else p :: mapDel rest k

/-- Per-socket identity record (interface UserInfo in the source). -/
structure UserInfo where
  id : String
  name : String
  email : String
  image : Option String
  isModerator : Bool
deriving Repr, DecidableEq

/-- A chat message waiting in the in-memory buffer (interface BufferedMessage). -/
structure BufferedMessage where
  id : String
  meetingCode : String
  senderId : String
  senderName : String
  content : String
  createdAt : Nat
deriving Repr, DecidableEq

/-- A row handed to the persistence collaborator by the flusher
(the object literal built inside flushMessages). -/
structure PersistRecord where
  id : String
  meetingId : String
  senderId : String
  senderName : String
  content : String
  createdAt : Nat
deriving Repr, DecidableEq

/-- Payload of a signaling event; toId embeds the payload field named to in
the source, addressing the target socket; body stands for the opaque sdp or
candidate contents carried along. -/
structure SignalPayload where
  toId : String
  body : String
deriving Repr, DecidableEq

/-- Outbound socket events emitted by the coordinator. -/
inductive OutEvent where
  | chatMessage (userId senderName text : String) (time : Nat)
  | peerJoined (socketId : String) (info : UserInfo)
  | existingParticipants (participants : List (String × UserInfo))
  | offer (p : SignalPayload) (senderInfo : Option UserInfo)
  | answer (p : SignalPayload) (senderInfo : Option UserInfo)
  | iceCandidate (p : SignalPayload)
  | kickError (message : String)
  | kicked (message kickedBy : String)
  | peerLeft (socketId reason : String) (info : Option UserInfo)
  | moderatorChanged (newModeratorId newModeratorName : String)
deriving Repr, DecidableEq

/-- Addressing of an outbound emission: a single socket (io.to(socketId)),
a whole room (io.to(roomId)), or a room minus one socket
(socket.to(roomId) / io.to(roomId).except(id)). -/
inductive Emit where
  | toSocket (target : String) (ev : OutEvent)
  | toRoom (roomId : String) (ev : OutEvent)
  | toRoomExcept (roomId exceptId : String) (ev : OutEvent)
deriving Repr, DecidableEq

/-- Shared mutable state of the coordinator module: the connected-socket set
of the transport, the module-level maps and the message buffer. -/
structure ServerState where
  connected : List String
  roomModerators : List (String × String)
  socketUserInfo : List (String × UserInfo)
  rooms : List (String × List String)
  messageBuffer : List BufferedMessage
  meetingIdMap : List (String × String)
deriving Repr, DecidableEq

def initialState : ServerState :=
  { connected := [], roomModerators := [], socketUserInfo := [],
    rooms := [], messageBuffer := [], meetingIdMap := [] }

/-- Members of a transport room (socket.io adapter room set). -/
def roomMembers (rooms : List (String × List String)) (r : String) : List String :=
  (mapGet rooms r).getD []

/-- Transport-level join: idempotent insertion into the room member set. -/
def roomJoin (rooms : List (String × List String)) (r s : String) : List (String × List String) :=
  let ms := roomMembers rooms r
  if s ∈ ms then rooms else mapSet rooms r (ms ++ [s])

/-- Transport-level leave: removal from the member set; the adapter drops a
room whose member set becomes empty. -/
def roomLeave (rooms : List (String × List String)) (r s : String) : List (String × List String) :=
  let ms := (roomMembers rooms r).filter (fun x => x ≠ s)
  if ms = [] then mapDel rooms r else mapSet rooms r ms

/-- Removal of a socket from every room at the end of a disconnect, as the
transport does after the disconnecting handler has run. -/
def removeFromAllRooms (rooms : List (String × List String)) (s : String) : List (String × List String) :=
  (rooms.map (fun p => (p.1, p.2.filter (fun x => x ≠ s)))).filter (fun p => p.2 ≠ [])

/-- JavaScript truthiness default: v or d where the empty string and a
missing value are both falsy. -/
def jsOr (v : Option String) (d : String) : String :=
  match v with
  | none => d
  | some s => if s = "" then d else s

/-- JavaScript expression v or undefined: the empty string collapses to
undefined (used for the optional avatar reference). -/
def jsOrNone (v : Option String) : Option String :=
  match v with
  | none => none
  | some s => if s = "" then none else some s

/-- Payload of the user-message event (fields roomId, text, senderName of
the received object; senderName may be absent). -/
structure UserMessagePayload where
  roomId : String
  text : String
  senderName : Option String
deriving Repr, DecidableEq

/-- Appending to the pending buffer (messageBuffer.push in the source). -/
def enqueueMessage (buffer : List BufferedMessage) (m : BufferedMessage) : List BufferedMessage :=
  buffer ++ [m]

/-- Handler of the user-message event: broadcast to the room excluding the
sender, then append a buffered record; now is the clock reading and freshId
the generated uuid. -/
def handleUserMessage (st : ServerState) (socketId : String) (msg : UserMessagePayload)
    (now : Nat) (freshId : String) : ServerState × List Emit :=
  let name := jsOr msg.senderName "Anonymous"
  let bm : BufferedMessage :=
    { id := freshId, meetingCode := msg.roomId, senderId := socketId,
      senderName := name, content := msg.text, createdAt := now }
  ({ st with messageBuffer := enqueueMessage st.messageBuffer bm },
   [Emit.toRoomExcept msg.roomId socketId (OutEvent.chatMessage socketId name msg.text now)])

/-- Payload of the join-room event after JSON parsing; optional fields model
properties that may be absent from the parsed object. -/
structure JoinPayload where
  roomId : String
  userEmail : Option String
  userName : Option String
  userImage : Option String
deriving Repr, DecidableEq

/-- Exceptions the join-room handler can raise: JSON.parse on an unparseable
message, and the TypeError from userEmail.toLowerCase() when userEmail is
absent while the creator lookup returned a non-null email. -/
inductive HandlerError where
  | jsonParseError
  | typeErrorUndefinedEmail
deriving Repr, DecidableEq

/-- Character-wise lowercasing, embedding the toLowerCase calls. -/
def lowerStr (s : String) : String := String.mk (s.data.map Char.toLower)

/-- The isCreator expression of the join-room handler:
creatorEmail not null, and userEmail not the empty string, and the two
emails equal case-insensitively; evaluating toLowerCase on an absent
userEmail throws. -/
def isCreatorCheck (creatorEmail userEmail : Option String) : Except HandlerError Bool :=
  match creatorEmail with
  | none => Except.ok false
  | some c =>
    match userEmail with
    | none => Except.error HandlerError.typeErrorUndefinedEmail
    | some e => if e = "" then Except.ok false else Except.ok (lowerStr c = lowerStr e)

/-- Identity record the join-room handler builds for the joiner. -/
def joinUserInfo (socketId : String) (payload : JoinPayload) (isCreator : Bool) : UserInfo :=
  { id := socketId, name := jsOr payload.userName "Anonymous",
    email := payload.userEmail.getD "", image := jsOrNone payload.userImage,
    isModerator := isCreator }

/-- Primitive steps the join-room handler performs, in program order. -/
inductive JoinAction where
  | setModerator (roomId socketId : String)
  | setIdentity (socketId : String) (info : UserInfo)
  | indexJoin (roomId socketId : String)
  | sendEmit (e : Emit)
  | replyParticipants (target roomId selfId : String)
deriving Repr, DecidableEq

/-- Fallback placeholder identity used when a peer has no registry record. -/
def placeholderInfo (s : String) : UserInfo :=
  { id := s, name := "Unknown", email := "", image := none, isModerator := false }

/-- Participant list sent to a joiner: every current room member other than
the joiner, paired with its registry record or the placeholder. -/
def participantsOf (st : ServerState) (roomId selfId : String) : List (String × UserInfo) :=
  ((roomMembers st.rooms roomId).filter (fun x => x ≠ selfId)).map
    (fun s => (s, (mapGet st.socketUserInfo s).getD (placeholderInfo s)))

/-- Interpreter of one join action over the running state and emit log. -/
def applyJoinAction (acc : ServerState × List Emit) (a : JoinAction) : ServerState × List Emit :=
  match a with
  | JoinAction.setModerator r s =>
      ({ acc.1 with roomModerators := mapSet acc.1.roomModerators r s }, acc.2)
  | JoinAction.setIdentity s info =>
      ({ acc.1 with socketUserInfo := mapSet acc.1.socketUserInfo s info }, acc.2)
  | JoinAction.indexJoin r s =>
      ({ acc.1 with rooms := roomJoin acc.1.rooms r s }, acc.2)
  | JoinAction.sendEmit e => (acc.1, acc.2 ++ [e])
  | JoinAction.replyParticipants t r selfId =>
      (acc.1, acc.2 ++ [Emit.toSocket t (OutEvent.existingParticipants (participantsOf acc.1 r selfId))])

/-- The ordered action sequence of the join-room handler; msg is the parsed
payload (none when JSON.parse throws) and creatorEmail the awaited answer of
the creator-lookup collaborator for the named room. -/
def joinRoomTrace (socketId : String) (msg : Option JoinPayload)
    (creatorEmail : Option String) : Except HandlerError (List JoinAction) :=
  match msg with
  | none => Except.error HandlerError.jsonParseError
  | some payload =>
    match isCreatorCheck creatorEmail payload.userEmail with
    | Except.error e => Except.error e
    | Except.ok isCreator =>
      let info := joinUserInfo socketId payload isCreator
      Except.ok
        ((if isCreator then [JoinAction.setModerator payload.roomId socketId] else []) ++
         [JoinAction.setIdentity socketId info,
          JoinAction.indexJoin payload.roomId socketId,
          JoinAction.sendEmit (Emit.toRoomExcept payload.roomId socketId
            (OutEvent.peerJoined socketId info)),
          JoinAction.replyParticipants socketId payload.roomId socketId])

/-- Handler of the join-room event: run the action trace left to right. -/
def handleJoinRoom (st : ServerState) (socketId : String) (msg : Option JoinPayload)
    (creatorEmail : Option String) : Except HandlerError (ServerState × List Emit) :=
  (joinRoomTrace socketId msg creatorEmail).map (fun tr => tr.foldl applyJoinAction (st, []))

/-- Handler of offer-to-server: relay to the target socket, spreading the
payload and adding the sender registry record under the userInfo key. -/
def handleOffer (st : ServerState) (socketId : String) (p : SignalPayload) : ServerState × List Emit :=
  (st, [Emit.toSocket p.toId (OutEvent.offer p (mapGet st.socketUserInfo socketId))])

/-- Handler of answer-to-server: same relay shape as the offer handler. -/
def handleAnswer (st : ServerState) (socketId : String) (p : SignalPayload) : ServerState × List Emit :=
  (st, [Emit.toSocket p.toId (OutEvent.answer p (mapGet st.socketUserInfo socketId))])

/-- Handler of ice-candidate-to-server: the source relays the payload as is,
with no identity augmentation and no registry read. -/
def handleIceCandidate (st : ServerState) (_socketId : String) (p : SignalPayload) : ServerState × List Emit :=
  (st, [Emit.toSocket p.toId (OutEvent.iceCandidate p)])

/-- Handler of kick-user: moderator check, self-kick check, then removal of
a live target with the kicked and peer-left notifications. -/
def handleKickUser (st : ServerState) (socketId roomId targetSocketId : String) : ServerState × List Emit :=
  let kickerInfo := mapGet st.socketUserInfo socketId
  if mapGet st.roomModerators roomId ≠ some socketId then
    (st, [Emit.toSocket socketId (OutEvent.kickError "Only the moderator can kick users")])
  else if targetSocketId = socketId then
    (st, [Emit.toSocket socketId (OutEvent.kickError "You cannot kick yourself")])
  else if targetSocketId ∈ st.connected then
    let targetInfo := mapGet st.socketUserInfo targetSocketId
    ({ st with rooms := roomLeave st.rooms roomId targetSocketId,
               socketUserInfo := mapDel st.socketUserInfo targetSocketId },
     [Emit.toSocket targetSocketId
        (OutEvent.kicked "You have been removed from the meeting by the moderator"
          (jsOr (kickerInfo.map (fun i => i.name)) "Moderator")),
      Emit.toRoom roomId (OutEvent.peerLeft targetSocketId "kicked" targetInfo)])
  else (st, [])

/-- Moderator failover branch of the disconnecting handler, run for a room
whose moderator is the departing socket.  The member set still contains the
departing socket at this point; the delete of the tracker entry only occurs
in the branch where a nonempty successor list has no head, which mirrors the
source exactly. -/
def promoteOrDrop (st : ServerState) (roomId socketId : String) : ServerState × List Emit :=
  let remaining := roomMembers st.rooms roomId
  let otherSockets := remaining.filter (fun x => x ≠ socketId)
  if otherSockets.length > 0 then
    match otherSockets.head? with
    | some newModerator =>
      let newModInfo := mapGet st.socketUserInfo newModerator
      let st1 := { st with roomModerators := mapSet st.roomModerators roomId newModerator }
      let st2 :=
        match newModInfo with
        | some info =>
          { st1 with socketUserInfo := mapSet st1.socketUserInfo newModerator { info with isModerator := true } }
        | none => st1
      (st2, [Emit.toRoom roomId (OutEvent.moderatorChanged newModerator
        (jsOr (newModInfo.map (fun i => i.name)) "Unknown"))])
    | none => ({ st with roomModerators := mapDel st.roomModerators roomId }, [])
  else (st, [])

/-- Handler of the disconnecting event: for each room the socket belongs to,
run failover when it was the moderator and broadcast peer-left, then delete
the registry record. -/
def handleDisconnecting (st : ServerState) (socketId : String) : ServerState × List Emit :=
  let userInfo := mapGet st.socketUserInfo socketId
  let myRooms := (st.rooms.filter (fun p => socketId ∈ p.2)).map (fun p => p.1)
  let folded := myRooms.foldl
    (fun (acc : ServerState × List Emit) roomId =>
      let stepped :=
        if mapGet acc.1.roomModerators roomId = some socketId then promoteOrDrop acc.1 roomId socketId
        else (acc.1, [])
      (stepped.1, acc.2 ++ stepped.2 ++
        [Emit.toRoom roomId (OutEvent.peerLeft socketId "disconnected" userInfo)]))
    (st, [])
  ({ folded.1 with socketUserInfo := mapDel folded.1.socketUserInfo socketId }, folded.2)

/-- Full disconnect of a socket: the disconnecting handler runs first, then
the transport removes the socket from every room and from the connected set. -/
def disconnectStep (st : ServerState) (socketId : String) : ServerState × List Emit :=
  let handled := handleDisconnecting st socketId
  ({ handled.1 with rooms := removeFromAllRooms handled.1.rooms socketId,
                    connected := handled.1.connected.filter (fun x => x ≠ socketId) }, handled.2)

/-- Cached room-code resolution (getMeetingId in the source): answer from
the meetingIdMap cache when present, otherwise ask the database collaborator
and cache a successful answer. -/
def getMeetingId (cache : List (String × String)) (dbLookup : String → Option String)
    (code : String) : Option String × List (String × String) :=
  match mapGet cache code with
  | some mid => (some mid, cache)
  | none =>
    match dbLookup code with
    | some mid => (some mid, mapSet cache code mid)
    | none => (none, cache)

/-- Conversion of a buffered message into the row handed to the insert. -/
def toPersistRecord (m : BufferedMessage) (mid : String) : PersistRecord :=
  { id := m.id, meetingId := mid, senderId := m.senderId, senderName := m.senderName,
    content := m.content, createdAt := m.createdAt }

/-- The resolution loop of flushMessages over the swapped-out snapshot:
returns the valid rows in order, the threaded cache, and the room codes of
the dropped (unresolvable) messages in order. -/
def resolveLoop (cache : List (String × String)) (dbLookup : String → Option String) :
    List BufferedMessage → List PersistRecord × List (String × String) × List String
  | [] => ([], cache, [])
  | m :: rest =>
    let resolved := getMeetingId cache dbLookup m.meetingCode
    let tail := resolveLoop resolved.2 dbLookup rest
    match resolved.1 with
    | some mid => (toPersistRecord m mid :: tail.1, tail.2.1, tail.2.2)
    | none => (tail.1, tail.2.1, m.meetingCode :: tail.2.2)

/-- Result of one flush cycle: the pending buffer afterwards, the cache,
the batched insert calls performed (at most one), the warning log for
dropped messages, and whether a failed insert was logged. -/
structure FlushOutcome where
  buffer : List BufferedMessage
  cache : List (String × String)
  writes : List (List PersistRecord)
  droppedWarnings : List String
  writeFailureLogged : Bool
deriving Repr, DecidableEq

/-- The synchronous swap at the top of flushMessages: snapshot the pending
list and clear it before any awaited call. -/
def flushSwap (buffer : List BufferedMessage) : List BufferedMessage × List BufferedMessage :=
  (buffer, [])

/-- One flush cycle of flushMessages with no enqueue interleaved;
insertSucceeds is the outcome of the batched insert, which only affects the
log (the catch block) and never the resulting buffer. -/
def flushMessages (buffer : List BufferedMessage) (cache : List (String × String))
    (dbLookup : String → Option String) (insertSucceeds : Bool) : FlushOutcome :=
  if buffer = [] then
    { buffer := buffer, cache := cache, writes := [], droppedWarnings := [],
      writeFailureLogged := false }
  else
    let swap := flushSwap buffer
    let resolved := resolveLoop cache dbLookup swap.1
    if resolved.1 = [] then
      { buffer := swap.2, cache := resolved.2.1, writes := [], droppedWarnings := resolved.2.2,
        writeFailureLogged := false }
    else
      { buffer := swap.2, cache := resolved.2.1, writes := [resolved.1],
        droppedWarnings := resolved.2.2, writeFailureLogged := !insertSucceeds }

/-- One flush cycle with a list of messages enqueued concurrently after the
swap point: the handler appends them to the live (already cleared) pending
list while the flush awaits its lookups and insert, so they end up in the
buffer left for the next cycle and never in the current snapshot. -/
def flushWithConcurrentEnqueues (buffer : List BufferedMessage) (cache : List (String × String))
    (dbLookup : String → Option String) (insertSucceeds : Bool)
    (arrivals : List BufferedMessage) : FlushOutcome :=
  if buffer = [] then
    { buffer := arrivals.foldl enqueueMessage buffer, cache := cache, writes := [],
      droppedWarnings := [], writeFailureLogged := false }
  else
    let swap := flushSwap buffer
    let pendingAfter := arrivals.foldl enqueueMessage swap.2
    let resolved := resolveLoop cache dbLookup swap.1
    if resolved.1 = [] then
      { buffer := pendingAfter, cache := resolved.2.1, writes := [], droppedWarnings := resolved.2.2,
        writeFailureLogged := false }
    else
      { buffer := pendingAfter, cache := resolved.2.1, writes := [resolved.1],
        droppedWarnings := resolved.2.2, writeFailureLogged := !insertSucceeds }

/-- Inbound events of the coordinator, carrying the external collaborator
answers the corresponding handler awaits. -/
inductive InEvent where
  | connect (socketId : String)
  | userMessage (socketId : String) (p : UserMessagePayload) (now : Nat) (freshId : String)
  | joinRoom (socketId : String) (msg : Option JoinPayload) (creatorEmail : Option String)
  | offerToServer (socketId : String) (p : SignalPayload)
  | answerToServer (socketId : String) (p : SignalPayload)
  | iceToServer (socketId : String) (p : SignalPayload)
  | kickUser (socketId roomId targetSocketId : String)
  | disconnecting (socketId : String)
deriving Repr, DecidableEq

/-- One coordinator step.  A join-room handler that throws aborts before any
state mutation, so the state is returned unchanged in the error case. -/
def step (st : ServerState) (e : InEvent) : ServerState × List Emit :=
  match e with
  | InEvent.connect s => ({ st with connected := st.connected ++ [s] }, [])
  | InEvent.userMessage s p now fid => handleUserMessage st s p now fid
  | InEvent.joinRoom s msg ce =>
    match handleJoinRoom st s msg ce with
    | Except.ok r => r
    | Except.error _ => (st, [])
  | InEvent.offerToServer s p => handleOffer st s p
  | InEvent.answerToServer s p => handleAnswer st s p
  | InEvent.iceToServer s p => handleIceCandidate st s p
  | InEvent.kickUser s r t => handleKickUser st s r t
  | InEvent.disconnecting s => disconnectStep st s

/-- Running a sequence of inbound events from a state. -/
def run (st : ServerState) (es : List InEvent) : ServerState :=
  es.foldl (fun s e => (step s e).1) st

/-- Projection of a buffered message onto the fields the spec compares:
message id, sender id, sender display name, content, timestamp. -/
def projM (m : BufferedMessage) : String × String × String × String × Nat :=
  (m.id, m.senderId, m.senderName, m.content, m.createdAt)

/-- Projection of a persisted row onto the same comparison fields. -/
def projR (r : PersistRecord) : String × String × String × String × Nat :=
  (r.id, r.senderId, r.senderName, r.content, r.createdAt)

theorem mapGet_mapSet_self {α : Type} (m : List (String × α)) (k : String) (v : α) :
    mapGet (mapSet m k v) k = some v := by
  induction m with
  | nil => simp [mapSet, mapGet]
  | cons p rest ih =>
    by_cases h : p.1 = k
    · simp [mapSet, h, mapGet]
    · simp [mapSet, h, mapGet, ih]

theorem mapGet_mapSet_ne {α : Type} (m : List (String × α)) (k k2 : String) (v : α)
    (h : k2 ≠ k) : mapGet (mapSet m k v) k2 = mapGet m k2 := by
  induction m with
  | nil => simp [mapSet, mapGet, Ne.symm h]
  | cons p rest ih =>
    by_cases hp : p.1 = k
    · simp [mapSet, mapGet, hp, Ne.symm h]
    · simp only [mapSet, mapGet, hp, if_false]
      by_cases hp2 : p.1 = k2
      · simp [mapGet, hp2]
      · simp [mapGet, hp2, ih]

/-- Resolving one code never changes the answer a later resolution gets. -/
theorem getMeetingId_fst_preserved (cache : List (String × String))
    (db : String → Option String) (code c : String) :
    (getMeetingId (getMeetingId cache db code).2 db c).1 = (getMeetingId cache db c).1 := by
  by_cases hcc : c = code
  · subst hcc
    cases hc : mapGet cache c with
    | some mid => simp [getMeetingId, hc]
    | none =>
      cases hd : db c with
      | none => simp [getMeetingId, hc, hd]
      | some mid => simp [getMeetingId, hc, hd, mapGet_mapSet_self]
  · cases hc : mapGet cache code with
    | some mid => simp [getMeetingId, hc]
    | none =>
      cases hd : db code with
      | none => simp [getMeetingId, hc, hd]
      | some mid =>
        simp only [getMeetingId, hc, hd, mapGet_mapSet_ne _ _ _ _ hcc]
        cases h2 : mapGet cache c with
        | some mid2 => simp
        | none => cases h3 : db c <;> simp

/-- The cache threaded through a resolution loop still yields the same
answers as the cache the loop started from. -/
theorem resolveLoop_cache_fst (db : String → Option String) (msgs : List BufferedMessage) :
    ∀ cache c, (getMeetingId (resolveLoop cache db msgs).2.1 db c).1 = (getMeetingId cache db c).1 := by
  induction msgs with
  | nil => intro cache c; simp [resolveLoop]
  | cons m rest ih =>
    intro cache c
    cases ho : (getMeetingId cache db m.meetingCode).1 with
    | some mid =>
      simp only [resolveLoop, ho]
      rw [ih]
      exact getMeetingId_fst_preserved cache db m.meetingCode c
    | none =>
      simp only [resolveLoop, ho]
      rw [ih]
      exact getMeetingId_fst_preserved cache db m.meetingCode c

/-- When every message of the snapshot resolves, the loop keeps every
message, in order, with identical comparison fields, and warns about none. -/
theorem resolveLoop_all_resolved (db : String → Option String) (msgs : List BufferedMessage) :
    ∀ cache, (∀ m ∈ msgs, (getMeetingId cache db m.meetingCode).1 ≠ none) →
    (resolveLoop cache db msgs).1.map projR = msgs.map projM ∧
    (resolveLoop cache db msgs).2.2 = [] := by
  induction msgs with
  | nil => intro cache _; simp [resolveLoop]
  | cons m rest ih =>
    intro cache hall
    cases ho : (getMeetingId cache db m.meetingCode).1 with
    | none => exact absurd ho (hall m (List.mem_cons_self m rest))
    | some mid =>
      have hrest : ∀ m2 ∈ rest,
          (getMeetingId ((getMeetingId cache db m.meetingCode).2) db m2.meetingCode).1 ≠ none := by
        intro m2 hm2
        rw [getMeetingId_fst_preserved]
        exact hall m2 (List.mem_cons_of_mem m hm2)
      have ihr := ih ((getMeetingId cache db m.meetingCode).2) hrest
      constructor
      · simp only [resolveLoop, ho, List.map_cons]
        rw [ihr.1]
        simp [projR, projM, toPersistRecord]
      · simp only [resolveLoop, ho]
        exact ihr.2

/-- A message that resolves is kept by the loop as its converted row. -/
theorem resolveLoop_mem (db : String → Option String) (msgs : List BufferedMessage) :
    ∀ cache m mid, m ∈ msgs → (getMeetingId cache db m.meetingCode).1 = some mid →
    toPersistRecord m mid ∈ (resolveLoop cache db msgs).1 := by
  induction msgs with
  | nil => intro cache m mid hm _; exact absurd hm (List.not_mem_nil m)
  | cons a rest ih =>
    intro cache m mid hm hres
    rcases List.mem_cons.mp hm with heq | htail
    · subst heq
      simp [resolveLoop, hres]
    · have hres2 : (getMeetingId ((getMeetingId cache db a.meetingCode).2) db m.meetingCode).1 = some mid := by
        rw [getMeetingId_fst_preserved]; exact hres
      cases ho : (getMeetingId cache db a.meetingCode).1 with
      | some mid2 =>
        simp only [resolveLoop, ho]
        exact List.mem_cons_of_mem _ (ih _ m mid htail hres2)
      | none =>
        simp only [resolveLoop, ho]
        exact ih _ m mid htail hres2

/-- Every row the loop keeps comes from a snapshot message with identical
comparison fields and a successful resolution of its room code. -/
theorem resolveLoop_sound (db : String → Option String) (msgs : List BufferedMessage) :
    ∀ cache r, r ∈ (resolveLoop cache db msgs).1 →
    ∃ m, m ∈ msgs ∧ projR r = projM m ∧
      (getMeetingId cache db m.meetingCode).1 = some r.meetingId := by
  induction msgs with
  | nil => intro cache r hr; simp [resolveLoop] at hr
  | cons a rest ih =>
    intro cache r hr
    cases ho : (getMeetingId cache db a.meetingCode).1 with
    | some mid =>
      simp only [resolveLoop, ho, List.mem_cons] at hr
      rcases hr with heq | htail
      · subst heq
        exact ⟨a, List.mem_cons_self a rest, rfl, by simpa [toPersistRecord] using ho⟩
      · rcases ih _ r htail with ⟨m, hm, hpr, hres⟩
        refine ⟨m, List.mem_cons_of_mem a hm, hpr, ?_⟩
        rw [← getMeetingId_fst_preserved cache db a.meetingCode]
        exact hres
    | none =>
      simp only [resolveLoop, ho] at hr
      rcases ih _ r hr with ⟨m, hm, hpr, hres⟩
      refine ⟨m, List.mem_cons_of_mem a hm, hpr, ?_⟩
      rw [← getMeetingId_fst_preserved cache db a.meetingCode]
      exact hres

/-- A message whose room code does not resolve produces its warning. -/
theorem resolveLoop_warn (db : String → Option String) (msgs : List BufferedMessage) :
    ∀ cache m, m ∈ msgs → (getMeetingId cache db m.meetingCode).1 = none →
    m.meetingCode ∈ (resolveLoop cache db msgs).2.2 := by
  induction msgs with
  | nil => intro cache m hm _; exact absurd hm (List.not_mem_nil m)
  | cons a rest ih =>
    intro cache m hm hres
    rcases List.mem_cons.mp hm with heq | htail
    · subst heq
      simp [resolveLoop, hres]
    · have hres2 : (getMeetingId ((getMeetingId cache db a.meetingCode).2) db m.meetingCode).1 = none := by
        rw [getMeetingId_fst_preserved]; exact hres
      cases ho : (getMeetingId cache db a.meetingCode).1 with
      | some mid2 =>
        simp only [resolveLoop, ho]
        exact ih _ m htail hres2
      | none =>
        simp only [resolveLoop, ho, List.mem_cons]
        exact Or.inr (ih _ m htail hres2)

theorem foldl_enqueueMessage (arr : List BufferedMessage) :
    ∀ b, arr.foldl enqueueMessage b = b ++ arr := by
  induction arr with
  | nil => intro b; simp
  | cons a r ih => intro b; simp [enqueueMessage, ih]

/-- C5: when every one of the N pending chat messages resolves to a durable
meeting id, the flush performs exactly one batched write whose rows are the
N messages in order, each exactly once, with matching id, sender id, sender
name, content and timestamp, and no message is dropped with a warning. -/
theorem flush_batches_all_resolved (buffer : List BufferedMessage)
    (cache : List (String × String)) (db : String → Option String) (ok : Bool)
    (hne : buffer ≠ [])
    (hall : ∀ m ∈ buffer, (getMeetingId cache db m.meetingCode).1 ≠ none) :
    ∃ w, (flushMessages buffer cache db ok).writes = [w] ∧
      w.map projR = buffer.map projM ∧
      (flushMessages buffer cache db ok).droppedWarnings = [] := by
  have h := resolveLoop_all_resolved db buffer cache hall
  have hvne : (resolveLoop cache db buffer).1 ≠ [] := by
    intro hv
    have h1 := h.1
    rw [hv] at h1
    simp only [List.map_nil] at h1
    exact hne (List.map_eq_nil_iff.mp h1.symm)
  refine ⟨(resolveLoop cache db buffer).1, ?_, h.1, ?_⟩
  · simp [flushMessages, hne, flushSwap, hvne]
  · simp [flushMessages, hne, flushSwap, hvne, h.2]

def bufW : List BufferedMessage :=
  [{ id := "m1", meetingCode := "R", senderId := "s1", senderName := "Alice",
     content := "hi", createdAt := 5 },
   { id := "m2", meetingCode := "S", senderId := "s2", senderName := "Bob",
     content := "yo", createdAt := 6 }]

def cacheW : List (String × String) := [("R", "rid")]

def dbW : String → Option String := fun c => if c = "S" then some "sid" else none

/-- Witness for C5 at a concrete two-message buffer. -/
theorem flush_batches_all_resolved_witness :
    bufW ≠ [] ∧ (∀ m ∈ bufW, (getMeetingId cacheW dbW m.meetingCode).1 ≠ none) ∧
    ∃ w, (flushMessages bufW cacheW dbW true).writes = [w] ∧
      w.map projR = bufW.map projM ∧
      (flushMessages bufW cacheW dbW true).droppedWarnings = [] :=
  ⟨by decide, by decide, flush_batches_all_resolved bufW cacheW dbW true (by decide) (by decide)⟩

/-- C8: every flushed message leaves the pending buffer whatever happens:
the resulting buffer is always empty, an unresolvable message is logged as
dropped, every written row stems from a resolvable snapshot message, and a
failed batched write is only logged, never retried. -/
theorem flush_drops_regardless_of_outcome (buffer : List BufferedMessage)
    (cache : List (String × String)) (db : String → Option String) (ok : Bool) :
    (flushMessages buffer cache db ok).buffer = [] ∧
    (∀ m ∈ buffer, (getMeetingId cache db m.meetingCode).1 = none →
      m.meetingCode ∈ (flushMessages buffer cache db ok).droppedWarnings) ∧
    (∀ w ∈ (flushMessages buffer cache db ok).writes, ∀ r ∈ w,
      ∃ m, m ∈ buffer ∧ projR r = projM m ∧
        (getMeetingId cache db m.meetingCode).1 = some r.meetingId) ∧
    (ok = false → (flushMessages buffer cache db ok).writes ≠ [] →
      (flushMessages buffer cache db ok).writeFailureLogged = true) := by
  by_cases hb : buffer = []
  · subst hb
    simp [flushMessages]
  · by_cases hv : (resolveLoop cache db buffer).1 = []
    · refine ⟨?_, ?_, ?_, ?_⟩
      · simp [flushMessages, hb, flushSwap, hv]
      · intro m hm hres
        simp only [flushMessages, flushSwap, if_neg hb, if_pos hv]
        exact resolveLoop_warn db buffer cache m hm hres
      · intro w hw
        simp [flushMessages, hb, flushSwap, hv] at hw
      · intro hok hw
        simp [flushMessages, hb, flushSwap, hv] at hw
    · refine ⟨?_, ?_, ?_, ?_⟩
      · simp [flushMessages, hb, flushSwap, hv]
      · intro m hm hres
        simp only [flushMessages, hb, flushSwap, hv, if_neg hb, if_neg hv]
        exact resolveLoop_warn db buffer cache m hm hres
      · intro w hw r hr
        simp only [flushMessages, if_neg hb, flushSwap, if_neg hv, List.mem_singleton] at hw
        subst hw
        exact resolveLoop_sound db buffer cache r hr
      · intro hok _
        subst hok
        simp [flushMessages, hb, flushSwap, hv]

def bufW8 : List BufferedMessage :=
  [{ id := "m3", meetingCode := "T", senderId := "s3", senderName := "Cara",
     content := "hm", createdAt := 7 },
   { id := "m4", meetingCode := "R", senderId := "s1", senderName := "Alice",
     content := "ok", createdAt := 8 }]

/-- Witness for C8 at a concrete buffer with one unresolvable message and a
failing batched write. -/
theorem flush_drops_regardless_of_outcome_witness :
    (flushMessages bufW8 cacheW dbW false).buffer = [] ∧
    (∀ m ∈ bufW8, (getMeetingId cacheW dbW m.meetingCode).1 = none →
      m.meetingCode ∈ (flushMessages bufW8 cacheW dbW false).droppedWarnings) ∧
    (∀ w ∈ (flushMessages bufW8 cacheW dbW false).writes, ∀ r ∈ w,
      ∃ m, m ∈ bufW8 ∧ projR r = projM m ∧
        (getMeetingId cacheW dbW m.meetingCode).1 = some r.meetingId) ∧
    (false = false → (flushMessages bufW8 cacheW dbW false).writes ≠ [] →
      (flushMessages bufW8 cacheW dbW false).writeFailureLogged = true) :=
  flush_drops_regardless_of_outcome bufW8 cacheW dbW false

/-- C6: the flush swaps the entire pending list for an empty one before any
awaited call, so messages enqueued during the flush are excluded from the
current batch, survive in the pending buffer, and a later flush writes them. -/
theorem flush_concurrent_enqueue_isolation (buffer arrivals : List BufferedMessage)
    (cache : List (String × String)) (db : String → Option String) (ok : Bool)
    (hb : buffer ≠ []) :
    (flushWithConcurrentEnqueues buffer cache db ok arrivals).buffer = arrivals ∧
    (flushWithConcurrentEnqueues buffer cache db ok arrivals).writes =
      (flushMessages buffer cache db ok).writes ∧
    (∀ m ∈ arrivals, ∀ mid,
      (getMeetingId (flushWithConcurrentEnqueues buffer cache db ok arrivals).cache db
        m.meetingCode).1 = some mid →
      ∃ w, (flushMessages arrivals
              (flushWithConcurrentEnqueues buffer cache db ok arrivals).cache db ok).writes = [w] ∧
        toPersistRecord m mid ∈ w) := by
  refine ⟨?_, ?_, ?_⟩
  · by_cases hv : (resolveLoop cache db buffer).1 = [] <;>
      simp [flushWithConcurrentEnqueues, hb, flushSwap, hv, foldl_enqueueMessage]
  · by_cases hv : (resolveLoop cache db buffer).1 = [] <;>
      simp [flushWithConcurrentEnqueues, flushMessages, hb, flushSwap, hv]
  · intro m hm mid hres
    have hane : arrivals ≠ [] := by
      intro h0
      rw [h0] at hm
      exact List.not_mem_nil m hm
    set cacheF := (flushWithConcurrentEnqueues buffer cache db ok arrivals).cache with hcf
    have hmem : toPersistRecord m mid ∈ (resolveLoop cacheF db arrivals).1 :=
      resolveLoop_mem db arrivals cacheF m mid hm hres
    have hvne : (resolveLoop cacheF db arrivals).1 ≠ [] := by
      intro h0
      rw [h0] at hmem
      exact List.not_mem_nil _ hmem
    refine ⟨(resolveLoop cacheF db arrivals).1, ?_, hmem⟩
    simp [flushMessages, hane, flushSwap, hvne]

def arrW : List BufferedMessage :=
  [{ id := "m5", meetingCode := "R", senderId := "s2", senderName := "Bob",
     content := "late", createdAt := 9 }]

/-- Witness for C6: one message enqueued during the flush of a one-message
buffer is excluded from the current write and written by the next flush. -/
theorem flush_concurrent_enqueue_isolation_witness :
    bufW8 ≠ [] ∧
    ((flushWithConcurrentEnqueues bufW8 cacheW dbW true arrW).buffer = arrW ∧
     (flushWithConcurrentEnqueues bufW8 cacheW dbW true arrW).writes =
       (flushMessages bufW8 cacheW dbW true).writes ∧
     (∀ m ∈ arrW, ∀ mid,
       (getMeetingId (flushWithConcurrentEnqueues bufW8 cacheW dbW true arrW).cache dbW
         m.meetingCode).1 = some mid →
       ∃ w, (flushMessages arrW
               (flushWithConcurrentEnqueues bufW8 cacheW dbW true arrW).cache dbW true).writes = [w] ∧
         toPersistRecord m mid ∈ w)) :=
  ⟨by decide, flush_concurrent_enqueue_isolation bufW8 arrW cacheW dbW true (by decide)⟩

/-- Decidable form of the room-moderator invariant: every tracked moderator
is a member of its room (an entry over an empty member set fails too). -/
def moderatorInvariantHolds (st : ServerState) : Bool :=
  st.roomModerators.all (fun p => (roomMembers st.rooms p.1).contains p.2)

def creatorJoinPayload : JoinPayload :=
  { roomId := "R", userEmail := some "a@x.com", userName := some "Alice", userImage := none }

/-- A verified creator opens room R and is its sole member, then disconnects. -/
def soleModeratorPrefix : List InEvent :=
  [InEvent.connect "s1", InEvent.joinRoom "s1" (some creatorJoinPayload) (some "a@x.com")]

def soleModeratorTrace : List InEvent :=
  soleModeratorPrefix ++ [InEvent.disconnecting "s1"]

/-- C1 (code bug): after the sole member, who is the moderator, disconnects,
the member set of room R is empty yet the moderator tracker still maps R to
the departed socket: the invariant held before the disconnect and is broken
after it, because the tracker delete of the source sits in an unreachable
branch. -/
theorem moderator_entry_survives_empty_room :
    moderatorInvariantHolds (run initialState soleModeratorPrefix) = true ∧
    moderatorInvariantHolds (run initialState soleModeratorTrace) = false ∧
    mapGet (run initialState soleModeratorTrace).roomModerators "R" = some "s1" ∧
    roomMembers (run initialState soleModeratorTrace).rooms "R" = [] := by
  refine ⟨?_, ?_, ?_, ?_⟩ <;> rfl

def aliceModInfo : UserInfo :=
  { id := "s1", name := "Alice", email := "a@x.com", image := none, isModerator := true }

/-- Room R already has socket s1 as assigned moderator and sole member. -/
def stIncumbent : ServerState :=
  { initialState with
    connected := ["s1", "s3"],
    roomModerators := [("R", "s1")],
    socketUserInfo := [("s1", aliceModInfo)],
    rooms := [("R", ["s1"])] }

def creatorRejoinPayload : JoinPayload :=
  { roomId := "R", userEmail := some "A@X.com", userName := some "Alice2", userImage := none }

/-- Counterexample to C2: a verified creator joining on a new socket s3
while room R already has assigned moderator s1 displaces the incumbent. -/
theorem join_creator_displaces_incumbent :
    mapGet stIncumbent.roomModerators "R" = some "s1" ∧
    (handleJoinRoom stIncumbent "s3" (some creatorRejoinPayload) (some "a@x.com")).map
      (fun res => mapGet res.1.roomModerators "R") = Except.ok (some "s3") := by
  refine ⟨?_, ?_⟩ <;> rfl

/-- C2 as amended: a joiner is assigned as the room moderator exactly when
the external creator check verifies them, regardless of any incumbent: a
verified creator always takes the tracker entry over, and a non-creator
leaves the tracker untouched. -/
theorem join_moderator_assignment (st : ServerState) (socketId : String)
    (payload : JoinPayload) (creatorEmail : Option String) (b : Bool)
    (h : isCreatorCheck creatorEmail payload.userEmail = Except.ok b) :
    (handleJoinRoom st socketId (some payload) creatorEmail).map
        (fun res => mapGet res.1.roomModerators payload.roomId) =
      Except.ok (if b then some socketId else mapGet st.roomModerators payload.roomId) ∧
    (handleJoinRoom st socketId (some payload) creatorEmail).map
        (fun res => res.1.roomModerators) =
      Except.ok (if b then mapSet st.roomModerators payload.roomId socketId
                 else st.roomModerators) := by
  cases b <;>
    simp [handleJoinRoom, joinRoomTrace, h, Except.map, applyJoinAction, List.foldl,
      mapGet_mapSet_self]

/-- Witness for C2 as amended: a verified creator joining a fresh room. -/
theorem join_moderator_assignment_witness :
    isCreatorCheck (some "a@x.com") creatorJoinPayload.userEmail = Except.ok true ∧
    ((handleJoinRoom initialState "s1" (some creatorJoinPayload) (some "a@x.com")).map
        (fun res => mapGet res.1.roomModerators creatorJoinPayload.roomId) =
      Except.ok (if true then some "s1" else mapGet initialState.roomModerators creatorJoinPayload.roomId) ∧
     (handleJoinRoom initialState "s1" (some creatorJoinPayload) (some "a@x.com")).map
        (fun res => res.1.roomModerators) =
      Except.ok (if true then mapSet initialState.roomModerators creatorJoinPayload.roomId "s1"
                 else initialState.roomModerators)) :=
  ⟨rfl, join_moderator_assignment initialState "s1" creatorJoinPayload (some "a@x.com") true rfl⟩

/-- Identity carried by a relayed signaling event, when any. -/
def eventSenderIdentity : OutEvent → Option UserInfo
  | OutEvent.offer _ u => u
  | OutEvent.answer _ u => u
  | _ => none

def bobInfo : UserInfo :=
  { id := "s1", name := "Bob", email := "b@x.com", image := none, isModerator := false }

def stSignal : ServerState :=
  { initialState with connected := ["s1", "s2"], socketUserInfo := [("s1", bobInfo)] }

def icePayloadW : SignalPayload := { toId := "s2", body := "candidate-1" }

/-- Counterexample to C3: the ice-candidate relay forwards the payload with
no sender-identity augmentation even though the sender has a registry
record, unlike the offer and answer relays. -/
theorem ice_relay_lacks_sender_identity :
    mapGet stSignal.socketUserInfo "s1" = some bobInfo ∧
    (handleIceCandidate stSignal "s1" icePayloadW).2 =
      [Emit.toSocket "s2" (OutEvent.iceCandidate icePayloadW)] ∧
    eventSenderIdentity (OutEvent.iceCandidate icePayloadW) = none ∧
    eventSenderIdentity (OutEvent.offer icePayloadW (mapGet stSignal.socketUserInfo "s1")) =
      some bobInfo := by
  refine ⟨?_, ?_, ?_, ?_⟩ <;> rfl

/-- C3 as amended: offer and answer events are relayed to exactly the
addressed target, unchanged except for the sender registry record added
under the userInfo key; ice-candidate events are relayed to exactly the
addressed target completely unchanged, with no sender identity. -/
theorem signal_relay_behavior (st : ServerState) (socketId : String) (p : SignalPayload) :
    handleOffer st socketId p =
      (st, [Emit.toSocket p.toId (OutEvent.offer p (mapGet st.socketUserInfo socketId))]) ∧
    handleAnswer st socketId p =
      (st, [Emit.toSocket p.toId (OutEvent.answer p (mapGet st.socketUserInfo socketId))]) ∧
    handleIceCandidate st socketId p =
      (st, [Emit.toSocket p.toId (OutEvent.iceCandidate p)]) ∧
    eventSenderIdentity (OutEvent.offer p (mapGet st.socketUserInfo socketId)) =
      mapGet st.socketUserInfo socketId ∧
    eventSenderIdentity (OutEvent.iceCandidate p) = none :=
  ⟨rfl, rfl, rfl, rfl, rfl⟩

def noEmailPayload : JoinPayload :=
  { roomId := "R", userEmail := none, userName := some "Eve", userImage := none }

/-- C4 (code bug): a join-room message that does not parse makes the handler
throw out of JSON.parse, and a parsed payload without a userEmail field
makes it throw a TypeError from toLowerCase once the creator lookup returned
an email; neither malformed event is silently ignored. -/
theorem join_malformed_payload_throws :
    handleJoinRoom initialState "s1" none (some "a@x.com") =
      Except.error HandlerError.jsonParseError ∧
    handleJoinRoom initialState "s1" (some noEmailPayload) (some "a@x.com") =
      Except.error HandlerError.typeErrorUndefinedEmail :=
  ⟨rfl, rfl⟩

/-- C7: a kick-user request from a socket that is not the room moderator, or
that targets the requester itself, leaves the whole state untouched and
produces exactly one kick-error reply to the requester, so no kicked or
peer-left event is emitted to anyone. -/
theorem kick_unauthorized_rejected (st : ServerState) (socketId roomId target : String)
    (h : mapGet st.roomModerators roomId ≠ some socketId ∨ target = socketId) :
    (handleKickUser st socketId roomId target).1 = st ∧
    ((handleKickUser st socketId roomId target).2 =
        [Emit.toSocket socketId (OutEvent.kickError "Only the moderator can kick users")] ∨
     (handleKickUser st socketId roomId target).2 =
        [Emit.toSocket socketId (OutEvent.kickError "You cannot kick yourself")]) := by
  by_cases hmod : mapGet st.roomModerators roomId = some socketId
  · rcases h with hmod2 | hself
    · exact absurd hmod hmod2
    · subst hself
      exact ⟨by simp [handleKickUser, hmod], Or.inr (by simp [handleKickUser, hmod])⟩
  · exact ⟨by simp [handleKickUser, hmod], Or.inl (by simp [handleKickUser, hmod])⟩

/-- Witness for C7: a non-moderator kick attempt in the empty state. -/
theorem kick_unauthorized_rejected_witness :
    (mapGet initialState.roomModerators "R" ≠ some "s9" ∨ "t1" = "s9") ∧
    ((handleKickUser initialState "s9" "R" "t1").1 = initialState ∧
     ((handleKickUser initialState "s9" "R" "t1").2 =
         [Emit.toSocket "s9" (OutEvent.kickError "Only the moderator can kick users")] ∨
      (handleKickUser initialState "s9" "R" "t1").2 =
         [Emit.toSocket "s9" (OutEvent.kickError "You cannot kick yourself")])) :=
  ⟨Or.inl (by decide), kick_unauthorized_rejected initialState "s9" "R" "t1" (Or.inl (by decide))⟩

/-- Actions of the join trace that send something to a client. -/
def isOutboundAction : JoinAction → Bool
  | JoinAction.sendEmit _ => true
  | JoinAction.replyParticipants _ _ _ => true
  | _ => false

/-- C9: in every successful join, the membership-index update strictly
precedes every outbound send of the handler: the trace splits as pre ++ post
with the index join inside pre, no outbound action in pre, and both the
peer-joined broadcast and the existing-participants reply in post. -/
theorem join_index_precedes_sends (socketId : String) (msg : Option JoinPayload)
    (creatorEmail : Option String) (tr : List JoinAction)
    (h : joinRoomTrace socketId msg creatorEmail = Except.ok tr) :
    ∃ payload pre post, msg = some payload ∧ tr = pre ++ post ∧
      JoinAction.indexJoin payload.roomId socketId ∈ pre ∧
      (∀ a ∈ pre, isOutboundAction a = false) ∧
      (∀ a ∈ post, isOutboundAction a = true) ∧
      (∃ info, JoinAction.sendEmit (Emit.toRoomExcept payload.roomId socketId
        (OutEvent.peerJoined socketId info)) ∈ post) ∧
      JoinAction.replyParticipants socketId payload.roomId socketId ∈ post := by
  cases msg with
  | none => simp [joinRoomTrace] at h
  | some payload =>
    cases hc : isCreatorCheck creatorEmail payload.userEmail with
    | error e => simp [joinRoomTrace, hc] at h
    | ok b =>
      simp only [joinRoomTrace, hc] at h
      injection h with h2
      subst h2
      cases b with
      | true =>
        refine ⟨payload,
          [JoinAction.setModerator payload.roomId socketId,
           JoinAction.setIdentity socketId (joinUserInfo socketId payload true),
           JoinAction.indexJoin payload.roomId socketId],
          [JoinAction.sendEmit (Emit.toRoomExcept payload.roomId socketId
             (OutEvent.peerJoined socketId (joinUserInfo socketId payload true))),
           JoinAction.replyParticipants socketId payload.roomId socketId],
          rfl, rfl, by simp, ?_, ?_,
          ⟨joinUserInfo socketId payload true, by simp⟩, by simp⟩
        · intro a ha
          simp only [List.mem_cons, List.not_mem_nil, or_false] at ha
          rcases ha with rfl | rfl | rfl <;> rfl
        · intro a ha
          simp only [List.mem_cons, List.not_mem_nil, or_false] at ha
          rcases ha with rfl | rfl <;> rfl
      | false =>
        refine ⟨payload,
          [JoinAction.setIdentity socketId (joinUserInfo socketId payload false),
           JoinAction.indexJoin payload.roomId socketId],
          [JoinAction.sendEmit (Emit.toRoomExcept payload.roomId socketId
             (OutEvent.peerJoined socketId (joinUserInfo socketId payload false))),
           JoinAction.replyParticipants socketId payload.roomId socketId],
          rfl, rfl, by simp, ?_, ?_,
          ⟨joinUserInfo socketId payload false, by simp⟩, by simp⟩
        · intro a ha
          simp only [List.mem_cons, List.not_mem_nil, or_false] at ha
          rcases ha with rfl | rfl <;> rfl
        · intro a ha
          simp only [List.mem_cons, List.not_mem_nil, or_false] at ha
          rcases ha with rfl | rfl <;> rfl

def participantJoinPayload : JoinPayload :=
  { roomId := "R", userEmail := some "b@x.com", userName := some "Bob", userImage := none }

def participantJoinTrace : List JoinAction :=
  [JoinAction.setIdentity "s2" (joinUserInfo "s2" participantJoinPayload false),
   JoinAction.indexJoin "R" "s2",
   JoinAction.sendEmit (Emit.toRoomExcept "R" "s2"
     (OutEvent.peerJoined "s2" (joinUserInfo "s2" participantJoinPayload false))),
   JoinAction.replyParticipants "s2" "R" "s2"]

/-- Witness for C9 at a concrete non-creator join. -/
theorem join_index_precedes_sends_witness :
    joinRoomTrace "s2" (some participantJoinPayload) none = Except.ok participantJoinTrace ∧
    (∃ payload pre post, some participantJoinPayload = some payload ∧
      participantJoinTrace = pre ++ post ∧
      JoinAction.indexJoin payload.roomId "s2" ∈ pre ∧
      (∀ a ∈ pre, isOutboundAction a = false) ∧
      (∀ a ∈ post, isOutboundAction a = true) ∧
      (∃ info, JoinAction.sendEmit (Emit.toRoomExcept payload.roomId "s2"
        (OutEvent.peerJoined "s2" info)) ∈ post) ∧
      JoinAction.replyParticipants "s2" payload.roomId "s2" ∈ post) :=
  ⟨rfl, join_index_precedes_sends "s2" (some participantJoinPayload) none participantJoinTrace rfl⟩

/-- C10: the user-message handler, for every state, broadcasts the chat
message to the named room excluding the sender and appends one buffered
record, with no membership or registry precondition, and an absent display
name becomes Anonymous in both the broadcast and the buffered record. -/
theorem user_message_unconditional (st : ServerState) (socketId : String)
    (p : UserMessagePayload) (now : Nat) (freshId : String) :
    handleUserMessage st socketId p now freshId =
      ({ st with messageBuffer := st.messageBuffer ++
           [{ id := freshId, meetingCode := p.roomId, senderId := socketId,
              senderName := jsOr p.senderName "Anonymous", content := p.text,
              createdAt := now }] },
       [Emit.toRoomExcept p.roomId socketId
          (OutEvent.chatMessage socketId (jsOr p.senderName "Anonymous") p.text now)]) ∧
    (p.senderName = none → jsOr p.senderName "Anonymous" = "Anonymous") := by
  refine ⟨rfl, ?_⟩
  intro h
  rw [h]
  rfl

/-- Witness for C10: a sender with no registry record and no joined room,
and a missing display name, in the empty state. -/
theorem user_message_unconditional_witness :
    handleUserMessage initialState "s7" { roomId := "R", text := "hello", senderName := none } 3 "mid1" =
      ({ initialState with messageBuffer := initialState.messageBuffer ++
           [{ id := "mid1", meetingCode := "R", senderId := "s7",
              senderName := jsOr none "Anonymous", content := "hello", createdAt := 3 }] },
       [Emit.toRoomExcept "R" "s7"
          (OutEvent.chatMessage "s7" (jsOr none "Anonymous") "hello" 3)]) ∧
    ((none : Option String) = none → jsOr none "Anonymous" = "Anonymous") :=
  user_message_unconditional initialState "s7" { roomId := "R", text := "hello", senderName := none } 3 "mid1"

end VidoBackend
